import Mathlib

/-!
Verification of the `whatsmyip` Go package (`src/whatsmyip.go`).

The development shallowly embeds the three functions of the package that the
claims concern:

* `getIP` — the response parser (`func getIP(s string) (string, error)`),
  translated clause by clause; Go's `(value, error)` pair becomes
  `Except String String`, where `.ok v` models `(v, nil)` and `.error msg`
  models `("", fmt.Errorf(msg))`.
* `fetchURL` — one worker (`func fetchURL(ctx, url, ch)`); its interaction
  with the outside world (request construction, transport, body read) is
  abstracted into a `FetchEnv` record of step outcomes, and the function is
  modelled as the list of strings it sends on the channel `ch`.
* `Get` — the coordinator (`func Get() (ip, source string, err error)`);
  a concurrent run is modelled by `GetRun`, parameterised by the
  post-shuffle URL list and by the sequence of worker reports in the order
  the fan-in channel delivers them (completion order), each report tagged
  with the URL of the worker that produced it.

The Go standard-library string operations the code uses
(`strings.ToLower`, `strings.Contains(s, "\n")`, `strings.Split(s, "\n")`,
`strings.HasPrefix(line, "ip=")`, `strings.TrimPrefix(line, "ip=")`) are
given as structural functions over the character list `s.data`, so that all
of them compute by kernel reduction; each is documented with the Go function
it models.  All inputs of interest are ASCII, where these models agree with
Go's byte-level semantics.

Spec-level vocabulary that the code itself never implements (validity of an
IPv4/IPv6 literal, the canonical string form of an IPv6 address) is defined
separately below; each such definition is marked `Modelled from the spec`.
-/

deriving instance DecidableEq for Except

namespace Whatsmyip

/-- The package-level `urls` slice of `src/whatsmyip.go`: the configured
endpoint list. -/
def urls : List String :=
  ["https://cloudflare.com/cdn-cgi/trace",
   "https://checkip.amazonaws.com",
   "https://api.ipify.org",
   "https://icanhazip.com",
   "https://myexternalip.com/raw",
   "https://ipinfo.io/ip",
   "https://ipecho.net/plain",
   "https://ifconfig.me/ip",
   "https://ident.me",
   "https://whatismyip.akamai.com",
   "https://wgetip.com",
   "https://ip.tyk.nu"]

/-- Go `strings.ToLower`: lowercase every character (ASCII range; `Char.toLower`
agrees with Go on ASCII, which is all the accepted formats use). -/
def goToLower (s : String) : String := ⟨s.data.map Char.toLower⟩

/-- Go `strings.Contains(s, "\n")`. -/
def goContainsNl (s : String) : Bool := s.data.any (· == '\n')

/-- Go `strings.Split(s, sep)` for a one-character separator `sep`, on
character lists: split at every occurrence of `sep`, keeping empty fields, so
the result always has one more element than there are separators. -/
def splitOnCharList (sep : Char) : List Char → List (List Char)
  | [] => [[]]
  | c :: cs =>
    if c == sep then [] :: splitOnCharList sep cs
    else
      match splitOnCharList sep cs with
      | g :: gs => (c :: g) :: gs
      | [] => [[c]]

/-- Go `strings.Split(s, "\n")`. -/
def goSplitNl (s : String) : List String := (splitOnCharList '\n' s.data).map String.mk

/-- Go `strings.HasPrefix(line, "ip=")` for the fixed prefix `"ip="`. -/
def hasIpTag (s : String) : Bool :=
  match s.data with
  | 'i' :: 'p' :: '=' :: _ => true
  | _ => false

/-- Go `strings.TrimPrefix(line, "ip=")` for the fixed prefix `"ip="`. -/
def dropIpTag (s : String) : String :=
  match s.data with
  | 'i' :: 'p' :: '=' :: rest => ⟨rest⟩
  | _ => s

/-- The `for _, line := range lines` loop at the end of `getIP`
(src/whatsmyip.go lines 81-85 together with the final `return` at line 89):
return the text after `ip=` of the first line bearing that prefix, else the
`no ip address found` error. -/
def firstIpLine : List String → Except String String
  | [] => .error "no ip address found"
  | l :: ls => if hasIpTag l then .ok (dropIpTag l) else firstIpLine ls

/-- Translation of `func getIP(s string) (string, error)`, src/whatsmyip.go lines 63-90,
translated clause by clause: lowercase the input; if it contains a newline,
split on `"\n"`, keep the (dead) `len(lines) == 0` branch, handle the special
two-field case `len(lines) == 2 && lines[1] == ""`, and otherwise scan for an
`ip=` line; if the input contains no newline, return it (lowercased) as-is. -/
def getIP (s : String) : Except String String :=
  let t := goToLower s
  if goContainsNl t then
    let lines := goSplitNl t
    if lines.length == 0 then
      .error "empty response"
    else if lines.length == 2 && lines.getD 1 "" == "" then
      let l0 := lines.getD 0 ""
      if hasIpTag l0 then .ok (dropIpTag l0) else .ok l0
    else
      firstIpLine lines
  else
    .ok t

/-- The outcomes of the three effectful steps a worker performs before
parsing: `http.NewRequestWithContext`, `http.DefaultClient.Do`, and
`io.ReadAll` (src/whatsmyip.go lines 35-52).  A `true` flag means the step
failed; `body` is the text read when all three succeed. -/
structure FetchEnv where
  reqErr : Bool
  transportErr : Bool
  readErr : Bool
  body : String
deriving DecidableEq

/-- Translation of `func fetchURL(ctx, url, ch)`, src/whatsmyip.go lines 34-61, modelled
as the list of values the worker sends on `ch`: every early-error path sends
`""`, a parse error sends `""`, and success sends the parsed IP. -/
def fetchURL (e : FetchEnv) : List String :=
  if e.reqErr then [""]
  else if e.transportErr then [""]
  else if e.readErr then [""]
  else
    match getIP e.body with
    | .error _ => [""]
    | .ok ip => [ip]

/-- The triple `(ip, source, err)` returned by `Get`
(src/whatsmyip.go line 96); `err = none` models a nil error. -/
structure Outcome where
  ip : String
  source : String
  err : Option String
deriving DecidableEq

/-- The drain loop of `Get` (src/whatsmyip.go lines 110-119): at step `i` it
receives the `i`-th report from the channel and, if the report is non-empty,
returns it as the IP together with `urls[i]` — the URL sitting at position
`i` of the (shuffled) list, not the URL of the worker that produced the
report.  The first argument is the shuffled URL list, the second the reports
in arrival order. -/
def drainLoop : List String → List String → Outcome
  | u :: us, r :: rs => if r ≠ "" then ⟨r, u, none⟩ else drainLoop us rs
  | _, _ => ⟨"", "", some "all requests failed"⟩

/-- One call of `Get` (src/whatsmyip.go lines 96-120) after the shuffle, for
a given arrival sequence: `arrivals` lists, in completion order, the pairs
`(producing URL, report)` handed to the fan-in channel; the drain loop only
looks at the reports and at the shuffled list. -/
def GetRun (shuffled : List String) (arrivals : List (String × String)) : Outcome :=
  drainLoop shuffled (arrivals.map Prod.snd)

/-! ### Spec-level vocabulary: IP-literal validity and canonical form

`getIP` never validates or canonicalizes addresses, so none of the following
is translated from the source; the claims use the notions, so they are
modelled from the spec. -/

/-- Modelled from the spec: an ASCII decimal digit (the spec's accepted
formats use "only ASCII digits, dots, colons"). -/
def isDigitChar (c : Char) : Bool := 48 ≤ c.toNat && c.toNat ≤ 57

/-- Modelled from the spec: an ASCII hexadecimal digit, for IPv6 groups. -/
def isHexChar (c : Char) : Bool :=
  isDigitChar c || (97 ≤ c.toNat && c.toNat ≤ 102) || (65 ≤ c.toNat && c.toNat ≤ 70)

/-- Numeric value of a decimal digit string. -/
def digitsToNat (cs : List Char) : Nat := cs.foldl (fun n c => n * 10 + (c.toNat - 48)) 0

/-- Modelled from the spec: one octet of a dotted-decimal IPv4 literal —
one to three decimal digits, value at most 255, no leading zero. -/
def isOctet (cs : List Char) : Bool :=
  !cs.isEmpty && cs.length ≤ 3 && cs.all isDigitChar &&
    decide (digitsToNat cs ≤ 255) && (cs.length == 1 || !(cs.headD ' ' == '0'))

/-- Modelled from the spec: a valid IPv4 dotted-decimal literal — exactly
four octets separated by dots (and hence only digit or dot characters). -/
def isValidIPv4Chars (cs : List Char) : Bool :=
  cs.all (fun c => isDigitChar c || c == '.') &&
    match splitOnCharList '.' cs with
    | [a, b, c, d] => isOctet a && isOctet b && isOctet c && isOctet d
    | _ => false

/-- Modelled from the spec: a valid IPv4 dotted-decimal literal. -/
def isValidIPv4 (s : String) : Bool := isValidIPv4Chars s.data

/-- Modelled from the spec: one 16-bit group of an IPv6 literal — one to
four hexadecimal digits. -/
def isGroup (cs : List Char) : Bool := !cs.isEmpty && cs.length ≤ 4 && cs.all isHexChar

/-- Split a character list on the two-character separator `"::"` (leftmost,
non-overlapping), keeping empty fields, as Go `strings.Split(s, "::")`
would. -/
def splitDC : List Char → List (List Char)
  | ':' :: ':' :: rest => [] :: splitDC rest
  | c :: rest =>
    (match splitDC rest with
     | g :: gs => (c :: g) :: gs
     | [] => [[c]])
  | [] => [[]]

/-- The colon-separated pieces of one side of an IPv6 literal; an empty side
contributes no pieces. -/
def sidePieces (cs : List Char) : List (List Char) :=
  if cs.isEmpty then [] else splitOnCharList ':' cs

/-- Modelled from the spec: how many 16-bit units a piece list denotes — all
pieces hex groups, or all but the last hex groups with the last a trailing
embedded IPv4 literal (worth two units); `none` if neither. -/
def unitsOf (parts : List (List Char)) : Option Nat :=
  if parts.all isGroup then some parts.length
  else
    match parts.getLast? with
    | some tailPiece =>
      if isValidIPv4Chars tailPiece && parts.dropLast.all isGroup then
        some (parts.length + 1)
      else none
    | none => none

/-- Modelled from the spec: a valid IPv6 literal — either eight units with
no `::`, or a `::` compressing at least one zero unit, with plain hex groups
left of the `::` and hex groups plus an optional trailing embedded IPv4
right of it. -/
def isValidIPv6Chars (cs : List Char) : Bool :=
  match splitDC cs with
  | [w] =>
    (match unitsOf (sidePieces w) with
     | some n => n == 8
     | none => false)
  | [l, r] =>
    (sidePieces l).all isGroup &&
      (match unitsOf (sidePieces r) with
       | some b => decide ((sidePieces l).length + b ≤ 7)
       | none => false)
  | _ => false

/-- Modelled from the spec: a valid IPv6 literal. -/
def isValidIPv6 (s : String) : Bool := isValidIPv6Chars s.data

/-- Modelled from the spec: a valid IPv4 or IPv6 literal. -/
def isValidIP (s : String) : Bool := isValidIPv4 s || isValidIPv6 s

/-- Numeric value of a hexadecimal digit. -/
def hexVal (c : Char) : Nat :=
  if isDigitChar c then c.toNat - 48
  else if 97 ≤ c.toNat then c.toNat - 87
  else c.toNat - 55

/-- Numeric value of one hexadecimal group. -/
def groupVal (cs : List Char) : Nat := cs.foldl (fun n c => n * 16 + hexVal c) 0

/-- Modelled from the spec: the 16-bit unit values a piece list denotes
(companion of `unitsOf`). -/
def unitsVals (parts : List (List Char)) : Option (List Nat) :=
  if parts.all isGroup then some (parts.map groupVal)
  else
    match parts.getLast? with
    | some tailPiece =>
      if isValidIPv4Chars tailPiece && parts.dropLast.all isGroup then
        match splitOnCharList '.' tailPiece with
        | [a, b, c, d] =>
          some (parts.dropLast.map groupVal ++
            [digitsToNat a * 256 + digitsToNat b, digitsToNat c * 256 + digitsToNat d])
        | _ => none
      else none
    | none => none

/-- Modelled from the spec: parse an IPv6 literal into its eight 16-bit
group values, expanding a `::`. -/
def parseIPv6 (s : String) : Option (List Nat) :=
  match splitDC s.data with
  | [w] =>
    (match unitsVals (sidePieces w) with
     | some gs => if gs.length == 8 then some gs else none
     | none => none)
  | [l, r] =>
    if (sidePieces l).all isGroup then
      match unitsVals (sidePieces r) with
      | some rs =>
        let ls := (sidePieces l).map groupVal
        if ls.length + rs.length ≤ 7 then
          some (ls ++ List.replicate (8 - ls.length - rs.length) 0 ++ rs)
        else none
      | none => none
    else none
  | _ => none

/-- Lowercase hexadecimal rendering of a group value. -/
def hexStr (n : Nat) : String := ⟨Nat.toDigits 16 n⟩

/-- Length of the run of zero groups starting at index `i`. -/
def runLenFrom (gs : List Nat) (i : Nat) : Nat := ((gs.drop i).takeWhile (· == 0)).length

/-- Modelled from the spec: the leftmost longest run of at least two zero
groups (the run the canonical compressed form elides), as
`(start index, length)`. -/
def bestRun (gs : List Nat) : Option (Nat × Nat) :=
  (List.range gs.length).foldl
    (fun best i =>
      let len := runLenFrom gs i
      match best with
      | none => if 2 ≤ len then some (i, len) else none
      | some (bi, bl) => if bl < len then some (i, len) else some (bi, bl))
    none

/-- Colon-joined lowercase-hex rendering of a group list. -/
def renderGroups (gs : List Nat) : String := String.intercalate ":" (gs.map hexStr)

/-- Modelled from the spec: "canonicalized to its standard string form
(e.g. ... IPv6 compressed form)" — RFC 5952 rendering: lowercase hex, no
leading zeros, the leftmost longest run of two or more zero groups written
`::`. -/
def canonicalIPv6 (s : String) : Option String :=
  match parseIPv6 s with
  | none => none
  | some gs =>
    match bestRun gs with
    | none => some (renderGroups gs)
    | some (i, len) =>
      some (renderGroups (gs.take i) ++ "::" ++ renderGroups (gs.drop (i + len)))

/-! ### Helper lemmas -/

/-- Splitting never yields an empty field list. -/
theorem splitOnCharList_ne_nil (sep : Char) (cs : List Char) : splitOnCharList sep cs ≠ [] := by
  induction cs with
  | nil => simp [splitOnCharList]
  | cons c cs ih =>
    simp only [splitOnCharList]
    split
    · simp
    · split
      · simp
      · simp

/-- The line list `getIP` works on is never empty, so the `empty response`
branch of the source is dead. -/
theorem goSplitNl_ne_nil (s : String) : goSplitNl s ≠ [] := by
  simp [goSplitNl, splitOnCharList_ne_nil]

/-- If no line bears the `ip=` prefix, the scan loop reports
`no ip address found`. -/
theorem firstIpLine_error (L : List String) (h : ∀ l ∈ L, hasIpTag l = false) :
    firstIpLine L = .error "no ip address found" := by
  induction L with
  | nil => rfl
  | cons l ls ih =>
    simp only [firstIpLine, h l (List.mem_cons_self l ls)]
    exact ih fun x hx => h x (List.mem_cons_of_mem l hx)

/-- If exactly one line bears the `ip=` prefix, the scan loop returns that
line's text after the prefix, wherever the line sits. -/
theorem firstIpLine_unique (L : List String) (l : String) (hmem : l ∈ L)
    (htag : hasIpTag l = true) (hcount : L.countP hasIpTag = 1) :
    firstIpLine L = .ok (dropIpTag l) := by
  induction L with
  | nil => cases hmem
  | cons a as ih =>
    rw [List.countP_cons] at hcount
    by_cases ha : hasIpTag a = true
    · rw [if_pos ha] at hcount
      have h0 : as.countP hasIpTag = 0 := by omega
      have hla : l = a := by
        rcases List.mem_cons.mp hmem with h | h
        · exact h
        · exact absurd htag (List.countP_eq_zero.mp h0 l h)
      subst hla
      simp [firstIpLine, ha]
    · have hl : l ∈ as := by
        rcases List.mem_cons.mp hmem with h | h
        · exact absurd (h ▸ htag) ha
        · exact h
      have hc : as.countP hasIpTag = 1 := by simpa [ha] using hcount
      simp only [firstIpLine, ha, if_false]
      exact ih hl hc

/-- If every report in the channel is the empty failure sentinel, the drain
loop falls through and reports total failure. -/
theorem drainLoop_all_empty (us rs : List String) (h : ∀ r ∈ rs, r = "") :
    drainLoop us rs = ⟨"", "", some "all requests failed"⟩ := by
  induction us generalizing rs with
  | nil => cases rs <;> simp [drainLoop]
  | cons u us ih =>
    cases rs with
    | nil => simp [drainLoop]
    | cons r rs =>
      have hr : r = "" := h r (List.mem_cons_self r rs)
      simp only [drainLoop, hr, ne_eq, not_true_eq_false, if_false]
      exact ih rs fun x hx => h x (List.mem_cons_of_mem r hx)

/-- Every outcome of the drain loop has one of the two legal shapes:
non-empty IP and nil error, or empty IP, empty source and the total-failure
error. -/
theorem drainLoop_shapes (us rs : List String) :
    ((drainLoop us rs).ip ≠ "" ∧ (drainLoop us rs).err = none) ∨
    ((drainLoop us rs).ip = "" ∧ (drainLoop us rs).source = "" ∧
      (drainLoop us rs).err = some "all requests failed") := by
  induction us generalizing rs with
  | nil => right; cases rs <;> simp [drainLoop]
  | cons u us ih =>
    cases rs with
    | nil => right; simp [drainLoop]
    | cons r rs =>
      by_cases hr : r = ""
      · simpa [drainLoop, hr] using ih rs
      · left; simp [drainLoop, hr]

/-- Characters below code point 65 (digits, dot, colon, newline) are fixed
by `Char.toLower`. -/
theorem toLower_eq_of_lt (c : Char) (h : c.toNat < 65) : c.toLower = c := by
  simp only [Char.toLower]
  rw [if_neg]
  omega

/-- A character whose code point is not 10 is not the newline. -/
theorem beq_nl_false {c : Char} (h : c.toNat ≠ 10) : (c == '\n') = false := by
  refine beq_eq_false_iff_ne.mpr fun he => h ?_
  rw [he]
  rfl

/-- Mapping `Char.toLower` over characters it fixes is the identity. -/
theorem map_toLower_id (l : List Char) (h : ∀ c ∈ l, Char.toLower c = c) :
    l.map Char.toLower = l := by
  induction l with
  | nil => rfl
  | cons c cs ih =>
    rw [List.map_cons, h c (List.mem_cons_self c cs),
      ih fun x hx => h x (List.mem_cons_of_mem c hx)]

/-! ### Claim theorems -/

/-- C2, counterexample: `getIP` does not validate a single line without a
newline — on the input `hello`, which is not a valid IPv4 or IPv6 literal,
it succeeds and returns `hello` instead of failing, refuting the claim that
a single line is subjected to full IP validation. -/
theorem getIP_single_line_unvalidated_cex :
    getIP "hello" = .ok "hello" ∧ isValidIP "hello" = false :=
  ⟨by decide, by decide⟩

/-- C2, amended: `getIP` performs no IP validation at all — every input
containing no newline is returned whole (lowercased) as a success, whether
or not any of it parses as an IP address. -/
theorem getIP_trusts_single_line (s : String)
    (h : goContainsNl (goToLower s) = false) : getIP s = .ok (goToLower s) := by
  simp [getIP, h]

/-- Witness for `getIP_trusts_single_line` at the input `abc`. -/
theorem getIP_trusts_single_line_witness :
    getIP "abc" = .ok (goToLower "abc") :=
  getIP_trusts_single_line "abc" (by decide)

/-- C3, counterexample: the empty string contains no valid IP literal on any
line, yet `getIP` succeeds on it (returning the empty string) instead of
failing with the no-address error. -/
theorem getIP_empty_success_cex :
    getIP "" = .ok "" ∧ isValidIP "" = false :=
  ⟨by decide, by decide⟩

/-- C3, amended: `getIP` fails — and then always with the
`no ip address found` error — exactly on inputs that contain a newline, do
not split into two fields with the second empty, and have no line starting
with `ip=`; newline-free inputs such as the empty string succeed instead. -/
theorem getIP_failure_characterization (s : String)
    (hnl : goContainsNl (goToLower s) = true)
    (h2 : ¬((goSplitNl (goToLower s)).length = 2 ∧
      (goSplitNl (goToLower s)).getD 1 "" = ""))
    (htag : ∀ l ∈ goSplitNl (goToLower s), hasIpTag l = false) :
    getIP s = .error "no ip address found" := by
  have hne := goSplitNl_ne_nil (goToLower s)
  have h0 : ((goSplitNl (goToLower s)).length == 0) = false := by
    simpa [List.length_eq_zero] using hne
  have hg2 : ((goSplitNl (goToLower s)).length == 2 &&
      ((goSplitNl (goToLower s)).getD 1 "" == "")) = false := by
    simpa [Bool.and_eq_true] using h2
  simp only [getIP, hnl, if_true, h0, hg2, Bool.false_eq_true, if_false]
  exact firstIpLine_error _ htag

/-- Witness for `getIP_failure_characterization` at the input
`a` newline `b` newline `c`. -/
theorem getIP_failure_characterization_witness :
    getIP "a\nb\nc" = .error "no ip address found" :=
  getIP_failure_characterization "a\nb\nc" (by decide) (by decide) (by decide)

/-- C4, counterexample: on the single-line input `IP=10.0.0.1` (no
newline), `getIP` does not strip the lowercased prefix — it returns
`ip=10.0.0.1`, not the claimed `10.0.0.1`. -/
theorem getIP_uppercase_single_line_cex :
    getIP "IP=10.0.0.1" = .ok "ip=10.0.0.1" ∧
      getIP "IP=10.0.0.1" ≠ .ok "10.0.0.1" :=
  ⟨by decide, by decide⟩

/-- C4, amended: prefix matching is case-insensitive through lowercasing,
but the `ip=` prefix is only stripped on inputs containing a newline: with a
trailing newline `IP=10.0.0.1` parses to `10.0.0.1`, while without it the
whole lowercased line `ip=10.0.0.1` is returned. -/
theorem getIP_case_insensitive_amended :
    getIP "IP=10.0.0.1\n" = .ok "10.0.0.1" ∧
      getIP "IP=10.0.0.1" = .ok "ip=10.0.0.1" :=
  ⟨by decide, by decide⟩

/-- C5, counterexample: in the multi-line input
`ip=zzz` newline `ip=10.1.2.3` newline `x`, exactly one line is `ip=`
followed by a valid IP literal, yet `getIP` returns `zzz` — the suffix of
the first `ip=`-prefixed line — not `10.1.2.3`. -/
theorem getIP_unique_valid_line_cex :
    (goSplitNl (goToLower "ip=zzz\nip=10.1.2.3\nx")).countP
        (fun l => hasIpTag l && isValidIP (dropIpTag l)) = 1 ∧
      getIP "ip=zzz\nip=10.1.2.3\nx" = .ok "zzz" ∧
      getIP "ip=zzz\nip=10.1.2.3\nx" ≠ .ok "10.1.2.3" :=
  ⟨by decide, by decide, by decide⟩

/-- C5, amended: for every multi-line input in which exactly one line bears
the `ip=` prefix (not merely exactly one whose suffix is valid) and that
line's suffix is a valid IP literal, `getIP` returns that suffix, regardless
of the line's position among the lines. -/
theorem getIP_unique_tagged_line (s l : String)
    (hnl : goContainsNl (goToLower s) = true)
    (hmem : l ∈ goSplitNl (goToLower s))
    (htag : hasIpTag l = true)
    (huniq : (goSplitNl (goToLower s)).countP hasIpTag = 1)
    (hvalid : isValidIP (dropIpTag l) = true) :
    getIP s = .ok (dropIpTag l) := by
  have hne := goSplitNl_ne_nil (goToLower s)
  have h0 : ((goSplitNl (goToLower s)).length == 0) = false := by
    simpa [List.length_eq_zero] using hne
  by_cases hg2 : ((goSplitNl (goToLower s)).length == 2 &&
      ((goSplitNl (goToLower s)).getD 1 "" == "")) = true
  · obtain ⟨hlen, hsnd⟩ := Bool.and_eq_true_iff.mp hg2
    obtain ⟨a, b, hab⟩ := List.length_eq_two.mp (by simpa using hlen)
    have hb : b = "" := by simpa [hab] using hsnd
    have hla : l = a := by
      rcases by simpa [hab] using hmem with h | h
      · exact h
      · rw [h, hb] at htag
        exact absurd htag (by decide)
    subst hla
    simp only [getIP, hnl, if_true, h0, Bool.false_eq_true, if_false, hg2]
    simp [hab, htag]
  · have hg2f := Iff.of_eq (Bool.not_eq_true _) |>.mp hg2
    simp only [getIP, hnl, if_true, h0, Bool.false_eq_true, if_false, hg2f]
    exact firstIpLine_unique _ l hmem htag huniq

/-- Witness for `getIP_unique_tagged_line`: the line `ip=10.1.2.3` wins from
the middle of `x` newline `ip=10.1.2.3` newline `y`. -/
theorem getIP_unique_tagged_line_witness :
    getIP "x\nip=10.1.2.3\ny" = .ok (dropIpTag "ip=10.1.2.3") :=
  getIP_unique_tagged_line "x\nip=10.1.2.3\ny" "ip=10.1.2.3"
    (by decide) (by decide) (by decide) (by decide) (by decide)

/-- C6, counterexample: `0:0:0:0:0:0:0:1` is a valid IPv6 literal whose
canonical compressed form is `::1`, but `getIP` returns the literal
verbatim, not its canonical form. -/
theorem getIP_no_canonicalization_cex :
    isValidIPv6 "0:0:0:0:0:0:0:1" = true ∧
      canonicalIPv6 "0:0:0:0:0:0:0:1" = some "::1" ∧
      getIP "0:0:0:0:0:0:0:1" = .ok "0:0:0:0:0:0:0:1" ∧
      ("0:0:0:0:0:0:0:1" : String) ≠ "::1" :=
  ⟨by decide, by decide, by decide, by decide⟩

/-- C6, amended: for every valid IPv4 literal given as the whole input,
`getIP` succeeds and returns the literal unchanged (for IPv4 the canonical
dotted-decimal form is the literal itself); no canonicalization is applied,
so a valid non-canonical IPv6 literal is returned verbatim rather than
canonicalized. -/
theorem getIP_ipv4_literal_identity (a : String) (h : isValidIPv4 a = true) :
    getIP a = .ok a := by
  have hall : a.data.all (fun c => isDigitChar c || c == '.') = true := by
    have h' : isValidIPv4Chars a.data = true := h
    unfold isValidIPv4Chars at h'
    exact (Bool.and_eq_true_iff.mp h').1
  have hchar : ∀ c ∈ a.data, c.toNat < 65 ∧ c.toNat ≠ 10 := by
    intro c hc
    rcases Bool.or_eq_true_iff.mp (List.all_eq_true.mp hall c hc) with hd | hdot
    · have : 48 ≤ c.toNat ∧ c.toNat ≤ 57 := by simpa [isDigitChar] using hd
      omega
    · rw [show c = '.' from beq_iff_eq.mp hdot]
      decide
  have hlow : goToLower a = a := by
    show String.mk (a.data.map Char.toLower) = a
    rw [map_toLower_id a.data fun c hc => toLower_eq_of_lt c (hchar c hc).1]
  have hnc : goContainsNl a = false := by
    refine List.any_eq_false.mpr fun c hc => ?_
    simp [beq_nl_false (hchar c hc).2]
  simp [getIP, hlow, hnc]

/-- Witness for `getIP_ipv4_literal_identity` at `172.201.20.34`, the
spec's own scenario. -/
theorem getIP_ipv4_literal_identity_witness :
    getIP "172.201.20.34" = .ok "172.201.20.34" :=
  getIP_ipv4_literal_identity "172.201.20.34" (by decide)

/-- C1: the source identifier `Get` returns is the URL at the drain-count
position of the shuffled list, not the URL of the endpoint whose worker
produced the winning report.  Here two endpoints are configured; the second
one's worker is the only success and completes first (the arrival sequence
is a permutation of the tagged worker reports), yet `Get` returns the FIRST
url as the source, which is a different endpoint — contradicting `Get`'s own
doc comment ("url: The URL that successfully provided the IP address"). -/
theorem get_returns_position_not_producer :
    GetRun ["https://checkip.amazonaws.com", "https://icanhazip.com"]
        [("https://icanhazip.com", "93.184.216.34"),
         ("https://checkip.amazonaws.com", "")] =
      ⟨"93.184.216.34", "https://checkip.amazonaws.com", none⟩ ∧
    List.Perm
      [("https://icanhazip.com", "93.184.216.34"),
       ("https://checkip.amazonaws.com", "")]
      (["https://checkip.amazonaws.com", "https://icanhazip.com"].map
        fun u => (u, if u = "https://icanhazip.com" then "93.184.216.34" else "")) ∧
    ("https://checkip.amazonaws.com" : String) ≠ "https://icanhazip.com" ∧
    "https://checkip.amazonaws.com" ∈ urls ∧ "https://icanhazip.com" ∈ urls :=
  ⟨by decide, by decide, by decide, by decide, by decide⟩

/-- C7: every outcome of `Get` has exactly one of the two legal shapes — a
non-empty IP with a nil error, or an empty IP, empty source and the
(non-nil) total-failure error; never a mixture. -/
theorem get_outcome_dichotomy (shuffled : List String)
    (arrivals : List (String × String)) :
    ((GetRun shuffled arrivals).ip ≠ "" ∧ (GetRun shuffled arrivals).err = none) ∨
    ((GetRun shuffled arrivals).ip = "" ∧ (GetRun shuffled arrivals).source = "" ∧
      (GetRun shuffled arrivals).err = some "all requests failed") :=
  drainLoop_shapes shuffled (arrivals.map Prod.snd)

/-- C8: when every worker reports failure (the empty sentinel), `Get`
returns the single generic `all requests failed` error with empty IP and
empty source — no per-endpoint detail survives. -/
theorem get_all_endpoints_failed (shuffled : List String)
    (arrivals : List (String × String)) (h : ∀ p ∈ arrivals, p.2 = "") :
    GetRun shuffled arrivals = ⟨"", "", some "all requests failed"⟩ :=
  drainLoop_all_empty _ _ (by
    intro r hr
    obtain ⟨p, hp, rfl⟩ := List.mem_map.mp hr
    exact h p hp)

/-- Witness for `get_all_endpoints_failed` with one failing endpoint. -/
theorem get_all_endpoints_failed_witness :
    GetRun ["https://ident.me"] [("https://ident.me", "")] =
      ⟨"", "", some "all requests failed"⟩ :=
  get_all_endpoints_failed _ _ (by decide)

/-- C9: every control path of the worker sends exactly one report on the
channel, and consequently, when the arrival sequence carries one report per
endpoint (a permutation of the tagged worker reports) and every worker
failed, the drain loop of `Get` consumes them all and returns the
total-failure outcome instead of hanging. -/
theorem worker_reports_once_and_get_terminates :
    (∀ e : FetchEnv, (fetchURL e).length = 1) ∧
    (∀ (shuffled : List String) (report : String → String)
        (arrivals : List (String × String)),
      arrivals.Perm (shuffled.map fun u => (u, report u)) →
      (∀ u ∈ shuffled, report u = "") →
      GetRun shuffled arrivals = ⟨"", "", some "all requests failed"⟩) := by
  constructor
  · intro e
    unfold fetchURL
    split
    · rfl
    · split
      · rfl
      · split
        · rfl
        · split <;> rfl
  · intro shuffled report arrivals hperm hall
    refine drainLoop_all_empty _ _ ?_
    intro r hr
    obtain ⟨p, hp, rfl⟩ := List.mem_map.mp hr
    obtain ⟨u, hu, he⟩ := List.mem_map.mp (hperm.mem_iff.mp hp)
    rw [← he]
    exact hall u hu

/-- Witness for `worker_reports_once_and_get_terminates`: a worker whose
request construction failed sends one report, and a run over one failing
endpoint terminates with the total-failure outcome. -/
theorem worker_reports_once_and_get_terminates_witness :
    (fetchURL ⟨true, false, false, "x"⟩).length = 1 ∧
      GetRun ["https://wgetip.com"] [("https://wgetip.com", "")] =
        ⟨"", "", some "all requests failed"⟩ :=
  ⟨worker_reports_once_and_get_terminates.1 ⟨true, false, false, "x"⟩,
   worker_reports_once_and_get_terminates.2 ["https://wgetip.com"] (fun _ => "")
     [("https://wgetip.com", "")] (by decide) (by decide)⟩

/-- C10: `getIP` can succeed with the empty string (empty body, body
`ip=` newline), the worker then sends the empty string — the coordinator's
failure sentinel — so such an endpoint is treated as failed, and every
successful `Get` outcome carries a non-empty IP. -/
theorem empty_parse_is_failure_sentinel :
    getIP "" = .ok "" ∧ getIP "ip=\n" = .ok "" ∧
    fetchURL ⟨false, false, false, ""⟩ = [""] ∧
    fetchURL ⟨false, false, false, "ip=\n"⟩ = [""] ∧
    (∀ (shuffled : List String) (arrivals : List (String × String)),
      (GetRun shuffled arrivals).err = none → (GetRun shuffled arrivals).ip ≠ "") := by
  refine ⟨by decide, by decide, by decide, by decide, ?_⟩
  intro shuffled arrivals herr
  rcases drainLoop_shapes shuffled (arrivals.map Prod.snd) with h | h
  · exact h.1
  · exfalso
    have h22 : (GetRun shuffled arrivals).err = some "all requests failed" := h.2.2
    rw [h22] at herr
    cases herr

/-- Witness for `empty_parse_is_failure_sentinel`: a successful run indeed
carries a non-empty IP. -/
theorem empty_parse_is_failure_sentinel_witness :
    (GetRun ["https://ip.tyk.nu"] [("https://ip.tyk.nu", "10.0.0.7")]).ip ≠ "" :=
  empty_parse_is_failure_sentinel.2.2.2.2 _ _ (by decide)

end Whatsmyip
